import Mathlib

/-!
Shallow embedding of the download-orchestrator and upload-queue core of the
`updl` repository (`src/downloader.py`, `src/engines.py`, `src/telegram_bot.py`),
with theorems checking the natural-language specification against it.

Python dicts holding download records become a Lean structure; the in-process
tables become association lists; the file system becomes the set of existing
paths (a duplicate-free list of strings); wall-clock timestamps become an
abstract tick counter threaded through the code.  The record store backing
`db.save_download` / `db.delete_download` is not part of `src/` (only its
callers are); following the spec's §6 Record Store contract it is modelled as
an idempotent upsert / delete keyed by id.
-/

namespace Updl

/-! ### Upload engines (`telegram_bot.py`, `_init_upload_engines`) -/

/-- One entry of `self.upload_engines` in `UltimateTelegramBot._init_upload_engines`. -/
structure UploadEngine where
  name : String
  max_size : Nat
  chunk_size : Nat
  timeout : Nat
deriving DecidableEq, Repr

/-- The literal engine list from `_init_upload_engines` (`telegram_bot.py` lines 81-106),
in source order: 4 GiB, 2 GiB, 50 MiB, 20 MiB. -/
def upload_engines : List UploadEngine :=
  [⟨"premium_ultra", 4 * 1024 * 1024 * 1024, 1024 * 1024, 300⟩,
   ⟨"premium_large", 2 * 1024 * 1024 * 1024, 512 * 1024, 240⟩,
   ⟨"regular_large", 50 * 1024 * 1024, 256 * 1024, 180⟩,
   ⟨"regular_small", 20 * 1024 * 1024, 128 * 1024, 120⟩]

/-- `_select_upload_engine` (`telegram_bot.py` lines 298-305): return the first
engine of the list whose `max_size` covers the file, defaulting to
`upload_engines[0]`. -/
def select_upload_engine (file_size : Nat) : UploadEngine :=
  match upload_engines.find? (fun e => file_size ≤ e.max_size) with
  | some e => e
  | none => upload_engines.headD ⟨"", 0, 0, 0⟩

/-- Modelled from the spec (§4.4 step 2): select the upload strategy whose
`maxFileSizeBytes` is smallest among the buckets that still cover the file
(smallest fitting bucket first).  Used only to exhibit the divergence of
`select_upload_engine` from the specified selection. -/
def spec_select_smallest_fitting (file_size : Nat) : Option UploadEngine :=
  (upload_engines.filter (fun e => file_size ≤ e.max_size)).foldl
    (fun acc e =>
      match acc with
      | none => some e
      | some b => if e.max_size < b.max_size then some e else some b) none

/-! ### Upload queue (`telegram_bot.py`, `queue_upload` / `_process_upload_queue`) -/

/-- One item of `self.upload_queue` as built in `queue_upload`
(`telegram_bot.py` lines 604-612); `created_at` is an abstract tick. -/
structure UploadItem where
  filepath : String
  id : String
  itemType : String
  description : String
  tags : String
  priority : Int
  created_at : Nat
deriving DecidableEq, Repr

/-- The insertion loop of `queue_upload` (`telegram_bot.py` lines 614-623):
insert before the first queued item whose priority is strictly lower than the
new item's, appending when no such item exists. -/
def insert_by_priority (item : UploadItem) : List UploadItem → List UploadItem
  | [] => [item]
  | x :: xs =>
      if item.priority > x.priority then item :: x :: xs
      else x :: insert_by_priority item xs

/-- The mutable state of `UltimateTelegramBot` that the queue logic touches,
plus the set of existing file paths (`files`) standing for the file system. -/
structure BotState where
  upload_queue : List UploadItem
  processing_files : List String
  failed_files : List String
  files : List String
deriving DecidableEq, Repr

/-- `queue_upload` (`telegram_bot.py` lines 577-631), for a configured bot:
reject when the file does not exist, is being processed, previously failed, or
is already queued; otherwise insert by priority. -/
def queue_upload (s : BotState) (filepath id itemType description tags : String)
    (priority : Int) (clock : Nat) : BotState :=
  if filepath ∉ s.files then s
  else if filepath ∈ s.processing_files then s
  else if filepath ∈ s.failed_files then s
  else if s.upload_queue.any (fun it => it.filepath = filepath) then s
  else
    let item : UploadItem := ⟨filepath, id, itemType, description, tags, priority, clock⟩
    { s with upload_queue := insert_by_priority item s.upload_queue }

/-- One iteration of the `while` loop in `_process_upload_queue`
(`telegram_bot.py` lines 218-296).  `outcome` is the result of
`_upload_file_with_engine` (`true` = published, `false` = retries exhausted or
an exception).  Returns the new state together with the list of file paths for
which an upload was actually attempted in this iteration. -/
def worker_iteration (s : BotState) (outcome : Bool) : BotState × List String :=
  match s.upload_queue with
  | [] => (s, [])
  | item :: rest =>
      let fp := item.filepath
      let s := { s with upload_queue := rest }
      if fp ∈ s.processing_files ∨ fp ∈ s.failed_files then
        (s, [])
      else if fp ∉ s.files then
        ({ s with failed_files := fp :: s.failed_files }, [])
      else
        if outcome then
          ({ s with files := s.files.filter (· ≠ fp) }, [fp])
        else
          ({ s with failed_files := fp :: s.failed_files }, [fp])

/-- `clear_queue` (`telegram_bot.py` lines 645-651). -/
def clear_queue (s : BotState) : BotState :=
  { s with upload_queue := [], failed_files := [] }

/-- `retry_failed` (`telegram_bot.py` lines 653-658). -/
def retry_failed (s : BotState) : BotState :=
  { s with failed_files := [] }

/-- The operations that can act on the bot state. -/
inductive BotEvent
  | enqueue (filepath id itemType description tags : String) (priority : Int) (clock : Nat)
  | work (outcome : Bool)
  | clearQueue
  | retryFailed
deriving DecidableEq, Repr

/-- Dispatch one event; second component lists the uploads attempted. -/
def bot_step (s : BotState) : BotEvent → BotState × List String
  | .enqueue fp id ty d t p c => (queue_upload s fp id ty d t p c, [])
  | .work outcome => worker_iteration s outcome
  | .clearQueue => (clear_queue s, [])
  | .retryFailed => (retry_failed s, [])

/-- Run a sequence of events, accumulating every upload attempted. -/
def run_bot_events (s : BotState) : List BotEvent → BotState × List String
  | [] => (s, [])
  | e :: es =>
      let r := bot_step s e
      let r' := run_bot_events r.1 es
      (r'.1, r.2 ++ r'.2)

/-! ### Download records (`downloader.py`) -/

/-- The `status` strings used by `ProfessionalDownloader`. -/
inductive DStatus
  | initializing
  | downloading
  | paused
  | completed
  | error
  | cancelled
deriving DecidableEq, Repr

/-- The download-record dict of `ProfessionalDownloader` as a structure.
`hasSize` models whether the key `size` is present in the dict (it is absent
until a successful engine attempt sets it); timestamps are abstract ticks,
`none` meaning the key is absent. -/
structure DownloadData where
  id : String
  url : String
  filename : String
  filepath : String
  status : DStatus
  progress : Rat
  speed : Rat
  eta : Rat
  hasSize : Bool
  size : Rat
  description : String
  tags : String
  engine : String
  quality : String
  extract_audio : Bool
  retry_count : Nat
  max_retries : Nat
  error_message : Option String
  created_at : Option Nat
  started_at : Option Nat
  finished_at : Option Nat
deriving DecidableEq, Repr

/-- The initial record dict built by `start_download`
(`downloader.py` lines 86-106). -/
def mk_download_data (id url description tags quality : String)
    (extract_audio : Bool) (clock : Nat) : DownloadData where
  id := id
  url := url
  filename := "Initializing..."
  filepath := ""
  status := .initializing
  progress := 0
  speed := 0
  eta := 0
  hasSize := false
  size := 0
  description := description
  tags := tags
  engine := "unknown"
  quality := quality
  extract_audio := extract_audio
  retry_count := 0
  max_retries := 3
  error_message := none
  created_at := some clock
  started_at := none
  finished_at := none

/-- `progress_callback` inside `_download_worker` (`downloader.py` lines
178-191): update the volatile fields only while downloading; recompute `eta`
only when `speed > 0` and the `size` key is present, from the raw `progress`
argument as in the source. -/
def progress_callback (d : DownloadData) (progress speed : Rat) : DownloadData :=
  if d.status = .downloading then
    let d1 := { d with progress := min progress 100, speed := speed }
    if 0 < speed ∧ d.hasSize = true then
      let remaining := d.size - d.size * progress / 100
      { d1 with eta := if 0 < remaining then remaining / speed else 0 }
    else d1
  else d

/-! ### Engines and the worker loop (`engines.py`, `downloader.py`) -/

/-- The behaviour of one download-engine adapter for one attempt.  Every
adapter in `engines.py` wraps its body in `try/except` and returns a result
dict, so an attempt is `success` with a reported `size`, or a failure carrying
an `error` string and possibly leaving a partial file at the destination. -/
structure EngineSpec where
  name : String
  success : Bool
  size : Nat
  error : String
  leavesPartial : Bool
deriving DecidableEq, Repr

/-- One row written by `db.save_engine_stats` (success or failure of one
engine attempt).  Modelled from the spec: the stats store itself is not under
`src/`; per §4.2 it records engine, success flag, size and error per attempt. -/
structure StatEntry where
  engine : String
  url : String
  success : Bool
  size : Nat
  error : Option String
deriving DecidableEq, Repr

/-- Which timestamp field an assignment event wrote. -/
inductive TsField
  | createdAt
  | startedAt
  | finishedAt
deriving DecidableEq, Repr

/-- Result of running `_download_worker`: the final record, the engine-stat
rows written, the final file system, the engine names attempted in order, the
timestamp assignments performed, and the file-system states at each point the
loop moved on to the next engine after a failure. -/
structure WorkerResult where
  data : DownloadData
  stats : List StatEntry
  fs : List String
  attempts : List String
  events : List TsField
  fsTrace : List (List String)
deriving DecidableEq, Repr

/-- The filepath resolution of `_download_worker` (`downloader.py` lines
170-175): on the first attempt (empty `filepath`) set filename and filepath to
the destination `fp` that `get_unique_filepath` resolved. -/
def resolve_filepath (d1 : DownloadData) (fp : String) : DownloadData :=
  if d1.filepath = "" then { d1 with filename := fp, filepath := fp } else d1

/-- The record mutations at the top of one engine attempt (`downloader.py`
lines 157-175): set `downloading`, the engine name and `started_at`, then
resolve the filepath. -/
def attempt_data (d : DownloadData) (e : EngineSpec) (clock : Nat) (fp : String) :
    DownloadData :=
  resolve_filepath { d with status := .downloading, engine := e.name, started_at := some clock } fp

/-- The file-system effect of one adapter attempt on the destination path: a
successful attempt (or a failure leaving a partial file) leaves a file at
`fp`; any other failure leaves none. -/
def engine_fs_effect (e : EngineSpec) (fp : String) (fs : List String) : List String :=
  if e.success || e.leavesPartial then
    (if fp ∈ fs then fs else fp :: fs)
  else fs.filter (· ≠ fp)

/-- The per-engine `for` loop of `_download_worker` (`downloader.py` lines
152-262), followed by the all-engines-failed check (lines 258-262).  `fp` is
the destination path `get_unique_filepath` resolves on the first attempt; the
failure branch (lines 228-251) records a failure stat and deletes any file at
`fp` before continuing with the remaining engines. -/
def worker_loop (fp url : String) (clock : Nat) (d : DownloadData)
    (lastError : Option String) (fs : List String) :
    List EngineSpec → WorkerResult
  | [] =>
      if d.status = .downloading then
        let msg := lastError.getD "All download engines failed"
        ⟨{ d with status := .error, error_message := some msg }, [], fs, [], [], []⟩
      else ⟨d, [], fs, [], [], []⟩
  | e :: rest =>
      if d.status = .cancelled then
        ⟨d, [], fs, [], [], []⟩
      else
        if e.success then
          ⟨{ attempt_data d e clock fp with status := .completed, progress := 100, hasSize := true, size := (e.size : Rat), finished_at := some (clock + 1) },
           [⟨e.name, url, true, e.size, none⟩], engine_fs_effect e fp fs, [e.name],
           [.startedAt, .finishedAt], []⟩
        else
          let fsB := (engine_fs_effect e fp fs).filter (· ≠ fp)
          let r := worker_loop fp url (clock + 1) (attempt_data d e clock fp) (some e.error) fsB rest
          ⟨r.data, ⟨e.name, url, false, 0, some e.error⟩ :: r.stats, r.fs,
           e.name :: r.attempts, .startedAt :: r.events, fsB :: r.fsTrace⟩

/-- `_download_worker` (`downloader.py` lines 132-281): with no compatible
engine the raised exception is caught and the record is marked `error` with
the message of the raise on line 147; otherwise the engine loop runs. -/
def download_worker (fp url : String) (clock : Nat) (d : DownloadData)
    (engines : List EngineSpec) (fs : List String) : WorkerResult :=
  if engines.isEmpty then
    ⟨{ d with status := .error, error_message := some "No compatible download engines available" }, [], fs, [], [], []⟩
  else
    worker_loop fp url clock d none fs engines

/-- `EngineManager.get_all_compatible_engines` (`engines.py` lines 564-575):
walk the priority-ordered engine names (`config.get_engine_by_priority`, a
config routine not under `src/`; modelled from the spec §4.3 as the configured
names sorted ascending by priority), keeping those available whose
`can_handle_url` accepts the URL. -/
def get_all_compatible_engines (engine_priority : List String)
    (available : List (String × EngineSpec)) (url : String)
    (can_handle_url : String → String → Bool) : List EngineSpec :=
  engine_priority.filterMap (fun n =>
    match available.find? (fun p => p.1 = n) with
    | some p => if can_handle_url n url then some p.2 else none
    | none => none)

/-! ### The orchestrator (`downloader.py`, `ProfessionalDownloader`) -/

/-- Association-list lookup standing for Python dict indexing by id. -/
def lookupId (m : List (String × DownloadData)) (k : String) : Option DownloadData :=
  (m.find? (fun p => p.1 = k)).map (fun p => p.2)

/-- Dict assignment `m[k] = v`: replace the entry when the key is present,
append it otherwise. -/
def upsert (m : List (String × DownloadData)) (k : String) (v : DownloadData) :
    List (String × DownloadData) :=
  if m.any (fun p => p.1 = k) then
    m.map (fun p => if p.1 = k then (k, v) else p)
  else m ++ [(k, v)]

/-- Dict deletion `del m[k]` / `db.delete_download`. -/
def removeId (m : List (String × DownloadData)) (k : String) :
    List (String × DownloadData) :=
  m.filter (fun p => p.1 ≠ k)

/-- `sum(1 for d in self.downloads.values() if d.get('status') == 'downloading')`. -/
def countDownloading (m : List (String × DownloadData)) : Nat :=
  (m.filter (fun p => p.2.status = .downloading)).length

/-- The mutable state of `ProfessionalDownloader` together with the record
store (`dbase`, modelled from the spec §6 as an idempotent upsert/delete store
keyed by id) and the file system (`fs`, the set of existing paths). -/
structure OrchState where
  downloads : List (String × DownloadData)
  dbase : List (String × DownloadData)
  active_threads : List String
  fs : List String
deriving DecidableEq, Repr

/-- `start_download` (`downloader.py` lines 68-130): reject when the number of
downloading records has reached `config.SERVER.max_workers` (the `limit`
argument), otherwise insert and persist the initial record and schedule the
worker thread.  The generated id and the clock tick are arguments. -/
def start_download (s : OrchState) (limit : Nat) (id url description tags quality : String)
    (extract_audio : Bool) (clock : Nat) : Option String × OrchState :=
  if limit ≤ countDownloading s.downloads then (none, s)
  else
    let d := mk_download_data id url description tags quality extract_audio clock
    (some id,
     { s with downloads := upsert s.downloads id d,
              dbase := upsert s.dbase id d,
              active_threads := s.active_threads ++ [id] })

/-- `pause_download` (`downloader.py` lines 283-289): when the id is present,
set its status to `paused` and persist; unknown ids are ignored. -/
def pause_download (s : OrchState) (id : String) : OrchState :=
  match lookupId s.downloads id with
  | none => s
  | some d =>
      let d' := { d with status := .paused }
      { s with downloads := upsert s.downloads id d', dbase := upsert s.dbase id d' }

/-- `resume_download` (`downloader.py` lines 291-321): `false` when the id is
unknown, the record is not paused, or the concurrency limit is reached;
otherwise set `downloading`, bump `retry_count`, schedule the worker thread
and return `true`. -/
def resume_download (s : OrchState) (limit : Nat) (id : String) : Bool × OrchState :=
  match lookupId s.downloads id with
  | none => (false, s)
  | some d =>
      if d.status ≠ .paused then (false, s)
      else if limit ≤ countDownloading s.downloads then (false, s)
      else
        let d' := { d with status := .downloading, retry_count := d.retry_count + 1 }
        (true,
         { s with downloads := upsert s.downloads id d',
                  active_threads := s.active_threads ++ [id] })

/-- `cancel_download` (`downloader.py` lines 323-347): unknown ids are
ignored; otherwise delete any file at the record's `filepath`, drop the record
from the table, the thread registry and the record store. -/
def cancel_download (s : OrchState) (id : String) : OrchState :=
  match lookupId s.downloads id with
  | none => s
  | some d =>
      let fs' := if d.filepath ≠ "" then s.fs.filter (· ≠ d.filepath) else s.fs
      { downloads := removeId s.downloads id,
        dbase := removeId s.dbase id,
        active_threads := s.active_threads.filter (· ≠ id),
        fs := fs' }

/-- The engines a URL's worker run fails through before the first success:
the longest leading span of failing engines of the compatible list. -/
def failedSpan (es : List EngineSpec) : List EngineSpec :=
  es.takeWhile (fun e => !e.success)

/-- The first succeeding engine of the compatible list, when any. -/
def firstSuccess (es : List EngineSpec) : Option EngineSpec :=
  es.find? (fun e => e.success)

/-- An engine whose attempt fails with a network error, leaving a partial file. -/
def sample_fail_engine : EngineSpec := ⟨"requests", false, 0, "net err", true⟩

/-- An engine whose attempt succeeds writing 10 MB. -/
def sample_success_engine : EngineSpec := ⟨"wget", true, 10000000, "", false⟩

/-- An availability table holding the two sample engines under their names. -/
def sample_available : List (String × EngineSpec) :=
  [("requests", sample_fail_engine), ("wget", sample_success_engine)]

/-! ### Sample states used by witnesses -/

/-- A record in the `downloading` state. -/
def sample_downloading : DownloadData :=
  { mk_download_data "b1" "http://e/y.bin" "" "" "best" false 0 with status := .downloading }

/-- A record in the `paused` state. -/
def sample_paused : DownloadData :=
  { mk_download_data "a1" "http://e/x.bin" "" "" "best" false 0 with status := .paused }

/-- A record in the `completed` state. -/
def sample_completed : DownloadData :=
  { mk_download_data "c1" "http://e/z.bin" "" "" "best" false 0 with
      status := .completed, filepath := "/d/z.bin" }

/-- An orchestrator state with one active download. -/
def sample_busy : OrchState := ⟨[("b1", sample_downloading)], [("b1", sample_downloading)], ["b1"], []⟩

/-- An orchestrator state with one paused download. -/
def sample_idle : OrchState := ⟨[("a1", sample_paused)], [("a1", sample_paused)], [], []⟩

/-- An empty orchestrator state. -/
def sample_empty : OrchState := ⟨[], [], [], []⟩

/-- A downloading record with a known size, used to exercise the ETA update. -/
def sample_eta_record : DownloadData :=
  { mk_download_data "w9" "http://e/w.bin" "" "" "best" false 0 with
      status := .downloading, hasSize := true, size := 1000, eta := 7 }

/-- An orchestrator state holding one completed download. -/
def sample_completed_state : OrchState :=
  ⟨[("c1", sample_completed)], [("c1", sample_completed)], [], []⟩

/-- An orchestrator state with a paused record and a downloading record. -/
def sample_paused_busy : OrchState :=
  ⟨[("a1", sample_paused), ("b1", sample_downloading)], [], [], []⟩

/-- A queue holding priorities 9, 5, 1 in insertion order. -/
def sample_queue : List UploadItem :=
  [⟨"/f/a", "ia", "download", "", "", 9, 0⟩,
   ⟨"/f/b", "ib", "download", "", "", 5, 1⟩,
   ⟨"/f/d", "idd", "download", "", "", 1, 2⟩]

/-- A fresh priority-5 item, inserted after the existing priority-5 item. -/
def sample_new_item : UploadItem := ⟨"/f/c", "ic", "download", "", "", 5, 3⟩

/-- A bot state whose queue is `sample_queue` and whose files all exist. -/
def sample_bot : BotState :=
  ⟨sample_queue, [], [], ["/f/a", "/f/b", "/f/c", "/f/d"]⟩

/-- A bot state with one quarantined path, one queued item and one live file. -/
def sample_quarantined_bot : BotState :=
  ⟨[⟨"/f/live", "il", "download", "", "", 0, 0⟩], [], ["/f/bad"], ["/f/live", "/f/bad"]⟩

/-! ### Helper lemmas -/

theorem lookupId_cons_of_pos {p : String × DownloadData} {t : List (String × DownloadData)}
    {j : String} (h : p.1 = j) : lookupId (p :: t) j = some p.2 := by
  unfold lookupId
  rw [List.find?_cons_of_pos _ (by simp [h])]
  rfl

theorem lookupId_cons_of_neg {p : String × DownloadData} {t : List (String × DownloadData)}
    {j : String} (h : ¬ p.1 = j) : lookupId (p :: t) j = lookupId t j := by
  unfold lookupId
  rw [List.find?_cons_of_neg _ (by simp [h])]

theorem lookupId_map_replace (k : String) (v : DownloadData) :
    ∀ (t : List (String × DownloadData)), t.any (fun p => p.1 = k) = true →
      lookupId (t.map (fun p => if p.1 = k then (k, v) else p)) k = some v := by
  intro t
  induction t with
  | nil => intro h; simp at h
  | cons p t ih =>
      intro h
      by_cases hp : p.1 = k
      · rw [List.map_cons, if_pos hp]
        exact lookupId_cons_of_pos rfl
      · rw [List.map_cons, if_neg hp, lookupId_cons_of_neg hp]
        exact ih (by simpa [List.any_cons, hp] using h)

theorem lookupId_append_new (k : String) (v : DownloadData) :
    ∀ (t : List (String × DownloadData)), t.any (fun p => p.1 = k) = false →
      lookupId (t ++ [(k, v)]) k = some v := by
  intro t
  induction t with
  | nil => intro _; exact lookupId_cons_of_pos rfl
  | cons p t ih =>
      intro h
      have h' : ¬ p.1 = k ∧ t.any (fun p => p.1 = k) = false := by
        simpa [List.any_cons] using h
      rw [List.cons_append, lookupId_cons_of_neg h'.1]
      exact ih h'.2

theorem lookupId_upsert (m : List (String × DownloadData)) (k : String) (v : DownloadData) :
    lookupId (upsert m k v) k = some v := by
  unfold upsert
  split
  next h => exact lookupId_map_replace k v m h
  next h => exact lookupId_append_new k v m (Bool.not_eq_true _ ▸ h)

theorem lookupId_map_replace_ne (k : String) (v : DownloadData) (j : String) (hjk : j ≠ k) :
    ∀ (t : List (String × DownloadData)),
      lookupId (t.map (fun p => if p.1 = k then (k, v) else p)) j = lookupId t j := by
  intro t
  induction t with
  | nil => rfl
  | cons p t ih =>
      by_cases hp : p.1 = k
      · rw [List.map_cons, if_pos hp,
          lookupId_cons_of_neg (show ¬ (k, v).1 = j from fun hh => hjk hh.symm),
          lookupId_cons_of_neg (show ¬ p.1 = j from by rw [hp]; exact fun hh => hjk hh.symm)]
        exact ih
      · by_cases hpj : p.1 = j
        · rw [List.map_cons, if_neg hp, lookupId_cons_of_pos hpj, lookupId_cons_of_pos hpj]
        · rw [List.map_cons, if_neg hp, lookupId_cons_of_neg hpj, lookupId_cons_of_neg hpj]
          exact ih

theorem lookupId_append_ne (k : String) (v : DownloadData) (j : String) (hjk : j ≠ k) :
    ∀ (t : List (String × DownloadData)),
      lookupId (t ++ [(k, v)]) j = lookupId t j := by
  intro t
  induction t with
  | nil =>
      rw [List.nil_append, lookupId_cons_of_neg (show ¬ (k, v).1 = j from fun hh => hjk hh.symm)]
  | cons p t ih =>
      by_cases hpj : p.1 = j
      · rw [List.cons_append, lookupId_cons_of_pos hpj, lookupId_cons_of_pos hpj]
      · rw [List.cons_append, lookupId_cons_of_neg hpj, lookupId_cons_of_neg hpj]
        exact ih

theorem lookupId_upsert_ne (m : List (String × DownloadData)) (k : String)
    (v : DownloadData) (j : String) (hjk : j ≠ k) :
    lookupId (upsert m k v) j = lookupId m j := by
  unfold upsert
  split
  · exact lookupId_map_replace_ne k v j hjk m
  · exact lookupId_append_ne k v j hjk m

theorem mem_insert_by_priority (item y : UploadItem) :
    ∀ (q : List UploadItem), y ∈ insert_by_priority item q ↔ y = item ∨ y ∈ q := by
  intro q
  induction q with
  | nil => simp [insert_by_priority]
  | cons x xs ih =>
      unfold insert_by_priority
      split
      · simp only [List.mem_cons]
        try tauto
      · simp only [List.mem_cons, ih]
        try tauto

/-! ### Claim theorems -/

/-- C1: the claim says `_select_upload_engine` returns the strategy with the
smallest `max_size` still covering the file, so a file fitting the 20 MB
bucket gets the 20 MB bucket.  The code walks `upload_engines`, which is
ordered by descending `max_size`, and returns the first covering bucket, so a
10 MB file gets the 4 GiB `premium_ultra` bucket — the size-based selection
the docstring announces never picks any other bucket for files up to 4 GiB. -/
theorem select_upload_engine_ignores_file_size :
    select_upload_engine (10 * 1024 * 1024) =
      ⟨"premium_ultra", 4 * 1024 * 1024 * 1024, 1024 * 1024, 300⟩ ∧
    spec_select_smallest_fitting (10 * 1024 * 1024) =
      some ⟨"regular_small", 20 * 1024 * 1024, 128 * 1024, 120⟩ ∧
    select_upload_engine (20 * 1024 * 1024) = select_upload_engine (3 * 1024 * 1024 * 1024) := by
  exact ⟨by decide, by decide, by decide⟩

/-- C9: progress updates never divide by zero and never produce a negative
ETA: with `speed = 0` the `eta` field is left untouched, and whenever the code
recomputes it (`speed > 0`, record downloading, size known) the result is
nonnegative. -/
theorem progress_callback_eta_safe (d : DownloadData) (p s : Rat) :
    (s = 0 → (progress_callback d p s).eta = d.eta) ∧
    (0 < s → d.status = .downloading → d.hasSize = true →
      0 ≤ (progress_callback d p s).eta) := by
  constructor
  · intro hs
    subst hs
    unfold progress_callback
    by_cases hst : d.status = .downloading
    · rw [if_pos hst, if_neg]
      rintro ⟨h0, -⟩
      exact lt_irrefl 0 h0
    · rw [if_neg hst]
  · intro hs hst hsz
    unfold progress_callback
    rw [if_pos hst, if_pos ⟨hs, hsz⟩]
    dsimp only
    split
    next hrem => exact le_of_lt (div_pos hrem hs)
    next => exact le_refl 0

/-- Witness for C9 at a concrete record, progress 50 and speeds 0 and 2. -/
theorem progress_callback_eta_safe_witness :
    (progress_callback sample_eta_record 50 0).eta = sample_eta_record.eta ∧
    0 ≤ (progress_callback sample_eta_record 50 2).eta :=
  ⟨(progress_callback_eta_safe sample_eta_record 50 0).1 rfl,
   (progress_callback_eta_safe sample_eta_record 50 2).2 (by norm_num) rfl rfl⟩

/-- C3: `start_download` is rejected with no state change when the number of
downloading records has reached the limit, and otherwise creates and persists
an `initializing` record and schedules a worker thread. -/
theorem start_download_capacity (s : OrchState) (limit : Nat)
    (id url description tags quality : String) (audio : Bool) (clock : Nat) :
    (countDownloading s.downloads = limit →
      start_download s limit id url description tags quality audio clock = (none, s)) ∧
    (countDownloading s.downloads < limit →
      (start_download s limit id url description tags quality audio clock).1 = some id ∧
      lookupId (start_download s limit id url description tags quality audio clock).2.downloads id =
        some (mk_download_data id url description tags quality audio clock) ∧
      (mk_download_data id url description tags quality audio clock).status = .initializing ∧
      lookupId (start_download s limit id url description tags quality audio clock).2.dbase id =
        some (mk_download_data id url description tags quality audio clock) ∧
      id ∈ (start_download s limit id url description tags quality audio clock).2.active_threads) := by
  constructor
  · intro h
    unfold start_download
    rw [if_pos (h ▸ le_refl limit)]
  · intro h
    unfold start_download
    rw [if_neg (not_le.mpr h)]
    refine ⟨rfl, lookupId_upsert _ _ _, rfl, lookupId_upsert _ _ _, ?_⟩
    simp

/-- Witness for C3: with one active download, limit 1 rejects without a trace
and limit 2 admits the new record. -/
theorem start_download_capacity_witness :
    start_download sample_busy 1 "n1" "http://e/n.bin" "" "" "best" false 5 = (none, sample_busy) ∧
    (start_download sample_busy 2 "n1" "http://e/n.bin" "" "" "best" false 5).1 = some "n1" :=
  ⟨(start_download_capacity sample_busy 1 "n1" "http://e/n.bin" "" "" "best" false 5).1 (by decide),
   ((start_download_capacity sample_busy 2 "n1" "http://e/n.bin" "" "" "best" false 5).2
      (by decide)).1⟩

/-- C10: `pause_download` and `cancel_download` on an unknown id change
nothing (downloads table, record store, thread registry and file system all
unchanged) and raise no error, and `resume_download` returns `false` without
modifying any state. -/
theorem unknown_id_operations_noop (s : OrchState) (limit : Nat) (id : String)
    (h : lookupId s.downloads id = none) :
    pause_download s id = s ∧ cancel_download s id = s ∧
    resume_download s limit id = (false, s) := by
  unfold pause_download cancel_download resume_download
  rw [h]
  exact ⟨rfl, rfl, rfl⟩

/-- Witness for C10 on the empty orchestrator state. -/
theorem unknown_id_operations_noop_witness :
    pause_download sample_empty "z" = sample_empty ∧
    cancel_download sample_empty "z" = sample_empty ∧
    resume_download sample_empty 4 "z" = (false, sample_empty) :=
  unknown_id_operations_noop sample_empty 4 "z" rfl

/-- C5 counterexample: the claim says `pause_download` is a no-op on records
that are not `downloading`, but on a `completed` record the code still flips
the status to `paused`. -/
theorem pause_download_not_noop_on_completed :
    lookupId sample_completed_state.downloads "c1" = some sample_completed ∧
    sample_completed.status = .completed ∧
    lookupId (pause_download sample_completed_state "c1").downloads "c1" =
      some { sample_completed with status := .paused } ∧
    ({ sample_completed with status := .paused } : DownloadData) ≠ sample_completed := by
  exact ⟨by decide, by decide, by decide, by decide⟩

/-- C5 amended: `pause_download` sets the status of any existing record to
`paused`, whatever its current status; it touches no other record; and on an
already-`paused` record it leaves the downloads table unchanged and merely
rewrites the identical record to the record store (a no-op when the store is
in sync), raising no error. -/
theorem pause_download_amended (s : OrchState) (id : String) (d : DownloadData)
    (h : lookupId s.downloads id = some d) :
    lookupId (pause_download s id).downloads id = some { d with status := .paused } ∧
    (∀ j, j ≠ id →
      lookupId (pause_download s id).downloads j = lookupId s.downloads j ∧
      lookupId (pause_download s id).dbase j = lookupId s.dbase j) ∧
    (d.status = .paused →
      (∀ j, lookupId (pause_download s id).downloads j = lookupId s.downloads j) ∧
      (lookupId s.dbase id = some d →
        ∀ j, lookupId (pause_download s id).dbase j = lookupId s.dbase j)) := by
  unfold pause_download
  rw [h]
  refine ⟨lookupId_upsert _ _ _, ?_, ?_⟩
  · intro j hj
    exact ⟨lookupId_upsert_ne _ _ _ _ hj, lookupId_upsert_ne _ _ _ _ hj⟩
  · intro hpaused
    have hd : ({ d with status := .paused } : DownloadData) = d := by
      cases d
      simp_all
    constructor
    · intro j
      by_cases hj : j = id
      · subst hj
        rw [lookupId_upsert, hd, h]
      · exact lookupId_upsert_ne _ _ _ _ hj
    · intro hsync j
      by_cases hj : j = id
      · subst hj
        rw [lookupId_upsert, hd, hsync]
      · exact lookupId_upsert_ne _ _ _ _ hj

/-- Witness for C5 amended: pausing the one paused record of `sample_idle`
leaves its table entry unchanged. -/
theorem pause_download_amended_witness :
    lookupId (pause_download sample_idle "a1").downloads "a1" =
      some { sample_paused with status := .paused } ∧
    ∀ j, lookupId (pause_download sample_idle "a1").downloads j =
      lookupId sample_idle.downloads j :=
  ⟨(pause_download_amended sample_idle "a1" sample_paused (by decide)).1,
   ((pause_download_amended sample_idle "a1" sample_paused (by decide)).2.2 (by decide)).1⟩

/-- C6: `resume_download` succeeds exactly when the record exists in the
`paused` state and the downloading count is below the limit, in which case it
sets `downloading`, increments `retry_count` and schedules a worker thread;
whenever it returns `false` (unknown id, not paused, or at capacity) the whole
state is unchanged. -/
theorem resume_download_spec (s : OrchState) (limit : Nat) (id : String) :
    ((resume_download s limit id).1 = true ↔
      ∃ d, lookupId s.downloads id = some d ∧ d.status = .paused ∧
        countDownloading s.downloads < limit) ∧
    ((resume_download s limit id).1 = false → (resume_download s limit id).2 = s) ∧
    (∀ d, lookupId s.downloads id = some d → d.status = .paused →
      countDownloading s.downloads < limit →
      lookupId (resume_download s limit id).2.downloads id =
        some { d with status := .downloading, retry_count := d.retry_count + 1 } ∧
      id ∈ (resume_download s limit id).2.active_threads ∧
      (resume_download s limit id).2.dbase = s.dbase ∧
      (resume_download s limit id).2.fs = s.fs) := by
  cases hl : lookupId s.downloads id with
  | none =>
      have hres : resume_download s limit id = (false, s) := by
        unfold resume_download
        rw [hl]
      rw [hres]
      refine ⟨by simp, fun _ => rfl, ?_⟩
      intro d hd
      exact absurd hd (by simp)
  | some d =>
      by_cases hp : d.status = .paused
      · by_cases hcap : limit ≤ countDownloading s.downloads
        · have hres : resume_download s limit id = (false, s) := by
            unfold resume_download
            rw [hl]
            dsimp only
            rw [if_neg (not_not_intro hp), if_pos hcap]
          rw [hres]
          refine ⟨?_, fun _ => rfl, ?_⟩
          · constructor
            · intro hfalse
              exact absurd hfalse (by simp)
            · rintro ⟨d', -, -, hlt⟩
              exact absurd hcap (not_le.mpr hlt)
          · intro d' hd' hp' hlt
            exact absurd hcap (not_le.mpr hlt)
        · have hres : resume_download s limit id =
              (true, { s with
                downloads := upsert s.downloads id
                  { d with status := .downloading, retry_count := d.retry_count + 1 },
                active_threads := s.active_threads ++ [id] }) := by
            unfold resume_download
            rw [hl]
            dsimp only
            rw [if_neg (not_not_intro hp), if_neg hcap]
          rw [hres]
          refine ⟨?_, ?_, ?_⟩
          · constructor
            · intro _
              exact ⟨d, rfl, hp, not_le.mp hcap⟩
            · intro _
              rfl
          · intro hfalse
            exact absurd hfalse (by simp)
          · intro d' hd' hp' hlt
            obtain rfl : d = d' := by injection hd'
            refine ⟨lookupId_upsert _ _ _, by simp, rfl, rfl⟩
      · have hres : resume_download s limit id = (false, s) := by
          unfold resume_download
          rw [hl]
          dsimp only
          rw [if_pos hp]
        rw [hres]
        refine ⟨?_, fun _ => rfl, ?_⟩
        · constructor
          · intro hfalse
            exact absurd hfalse (by simp)
          · rintro ⟨d', hd', hp', -⟩
            obtain rfl : d = d' := by injection hd'
            exact (hp hp').elim
        · intro d' hd' hp' hlt
          obtain rfl : d = d' := by injection hd'
          exact absurd hp' hp

/-- Witness for C6: resume at capacity leaves the state unchanged; resume
below capacity flips the record to downloading and bumps `retry_count`. -/
theorem resume_download_spec_witness :
    (resume_download sample_paused_busy 1 "a1").2 = sample_paused_busy ∧
    lookupId (resume_download sample_idle 1 "a1").2.downloads "a1" =
      some { sample_paused with status := .downloading, retry_count := sample_paused.retry_count + 1 } :=
  ⟨(resume_download_spec sample_paused_busy 1 "a1").2.1 (by decide),
   ((resume_download_spec sample_idle 1 "a1").2.2 sample_paused (by decide) (by decide)
      (by decide)).1⟩

theorem insert_by_priority_eq (item : UploadItem) :
    ∀ (q : List UploadItem),
      insert_by_priority item q =
        q.takeWhile (fun x => item.priority ≤ x.priority) ++
          item :: q.dropWhile (fun x => item.priority ≤ x.priority) := by
  intro q
  induction q with
  | nil => rfl
  | cons x xs ih =>
      unfold insert_by_priority
      by_cases hx : item.priority > x.priority
      · have hle : decide (item.priority ≤ x.priority) = false := by
          simp [not_le.mpr hx]
        rw [if_pos hx, List.takeWhile_cons, List.dropWhile_cons, hle]
        simp
      · have hle : decide (item.priority ≤ x.priority) = true := by
          simp [not_lt.mp hx]
        rw [if_neg hx, List.takeWhile_cons, List.dropWhile_cons, hle]
        simp [ih]

theorem insert_by_priority_pairwise (item : UploadItem) :
    ∀ (q : List UploadItem),
      q.Pairwise (fun a b => b.priority ≤ a.priority) →
      (insert_by_priority item q).Pairwise (fun a b => b.priority ≤ a.priority) := by
  intro q
  induction q with
  | nil =>
      intro _
      exact List.pairwise_singleton _ _
  | cons x xs ih =>
      intro hq
      rw [List.pairwise_cons] at hq
      obtain ⟨hx, hxs⟩ := hq
      unfold insert_by_priority
      by_cases hgt : item.priority > x.priority
      · rw [if_pos hgt]
        refine List.Pairwise.cons ?_ (List.Pairwise.cons hx hxs)
        intro y hy
        rcases List.mem_cons.mp hy with rfl | hy
        · exact le_of_lt hgt
        · exact le_trans (hx y hy) (le_of_lt hgt)
      · rw [if_neg hgt]
        refine List.Pairwise.cons ?_ (ih hxs)
        intro y hy
        rcases (mem_insert_by_priority item y xs).mp hy with rfl | hy
        · exact not_lt.mp hgt
        · exact hx y hy

/-- C8: `queue_upload` inserts the new item immediately before the first
queued item of strictly lower priority (appending otherwise, hence FIFO within
a priority band), this keeps the queue sorted by nonincreasing priority, and
the worker always removes the head of the queue. -/
theorem upload_queue_priority_order (item : UploadItem) (q : List UploadItem)
    (s : BotState) (o : Bool)
    (filepath id itemType description tags : String) (priority : Int) (clock : Nat) :
    insert_by_priority item q =
      q.takeWhile (fun x => item.priority ≤ x.priority) ++
        item :: q.dropWhile (fun x => item.priority ≤ x.priority) ∧
    (q.Pairwise (fun a b => b.priority ≤ a.priority) →
      (insert_by_priority item q).Pairwise (fun a b => b.priority ≤ a.priority)) ∧
    (s.upload_queue ≠ [] →
      (worker_iteration s o).1.upload_queue = s.upload_queue.tail) ∧
    ((queue_upload s filepath id itemType description tags priority clock).upload_queue =
        s.upload_queue ∨
      (queue_upload s filepath id itemType description tags priority clock).upload_queue =
        insert_by_priority ⟨filepath, id, itemType, description, tags, priority, clock⟩
          s.upload_queue) := by
  refine ⟨insert_by_priority_eq item q, insert_by_priority_pairwise item q, ?_, ?_⟩
  · intro hne
    unfold worker_iteration
    cases hq : s.upload_queue with
    | nil => exact absurd hq hne
    | cons a rest =>
        dsimp only
        split
        · rfl
        · split
          · rfl
          · split
            · rfl
            · rfl
  · unfold queue_upload
    split
    · exact Or.inl rfl
    · split
      · exact Or.inl rfl
      · split
        · exact Or.inl rfl
        · split
          · exact Or.inl rfl
          · exact Or.inr rfl

/-- Witness for C8 on `sample_queue`: sortedness is preserved and the worker
pops the head. -/
theorem upload_queue_priority_order_witness :
    (insert_by_priority sample_new_item sample_queue).Pairwise
      (fun a b => b.priority ≤ a.priority) ∧
    (worker_iteration sample_bot true).1.upload_queue = sample_bot.upload_queue.tail :=
  ⟨(upload_queue_priority_order sample_new_item sample_queue sample_bot true
      "" "" "" "" "" 0 0).2.1 (by decide),
   (upload_queue_priority_order sample_new_item sample_queue sample_bot true
      "" "" "" "" "" 0 0).2.2.1 (by decide)⟩

theorem bot_step_failed_monotone (s : BotState) (e : BotEvent)
    (h1 : e ≠ BotEvent.clearQueue) (h2 : e ≠ BotEvent.retryFailed) :
    (∀ fp, fp ∈ s.failed_files → fp ∈ (bot_step s e).1.failed_files) ∧
    (∀ fp, fp ∈ (bot_step s e).2 → fp ∉ s.failed_files) := by
  cases e with
  | enqueue a b c d t p cl =>
      constructor
      · intro fp hfp
        show fp ∈ (queue_upload s a b c d t p cl).failed_files
        unfold queue_upload
        split
        · exact hfp
        · split
          · exact hfp
          · split
            · exact hfp
            · split
              · exact hfp
              · exact hfp
      · intro fp hfp
        exact absurd hfp (List.not_mem_nil fp)
  | work o =>
      show (∀ fp, fp ∈ s.failed_files → fp ∈ (worker_iteration s o).1.failed_files) ∧
        (∀ fp, fp ∈ (worker_iteration s o).2 → fp ∉ s.failed_files)
      unfold worker_iteration
      cases hq : s.upload_queue with
      | nil =>
          exact ⟨fun fp h => h, fun fp h => absurd h (List.not_mem_nil fp)⟩
      | cons item rest =>
          dsimp only
          split
          next hmem =>
            exact ⟨fun fp h => h, fun fp h => absurd h (List.not_mem_nil fp)⟩
          next hmem =>
            split
            next hex =>
              exact ⟨fun fp h => List.mem_cons_of_mem _ h,
                fun fp h => absurd h (List.not_mem_nil fp)⟩
            next hex =>
              have hnotfailed : item.filepath ∉ s.failed_files := fun hf => hmem (Or.inr hf)
              split
              · refine ⟨fun fp h => h, fun fp h => ?_⟩
                rcases List.mem_cons.mp h with rfl | h
                · exact hnotfailed
                · exact absurd h (List.not_mem_nil fp)
              · refine ⟨fun fp h => List.mem_cons_of_mem _ h, fun fp h => ?_⟩
                rcases List.mem_cons.mp h with rfl | h
                · exact hnotfailed
                · exact absurd h (List.not_mem_nil fp)
  | clearQueue => exact absurd rfl h1
  | retryFailed => exact absurd rfl h2

/-- C4: a quarantined file stays quarantined and is never uploaded again
under any sequence of enqueues and worker iterations; only the explicit
administrative events `clearQueue` / `retryFailed` can lift the quarantine,
and `queue_upload` rejects the quarantined path outright. -/
theorem quarantine_persists_until_admin_clear :
    ∀ (evs : List BotEvent) (s : BotState) (fp : String),
      fp ∈ s.failed_files →
      (∀ e ∈ evs, e ≠ BotEvent.clearQueue ∧ e ≠ BotEvent.retryFailed) →
      fp ∈ (run_bot_events s evs).1.failed_files ∧
      fp ∉ (run_bot_events s evs).2 ∧
      (∀ id itemType description tags priority clock,
        queue_upload s fp id itemType description tags priority clock = s) := by
  have hrej : ∀ (s' : BotState) (fp : String), fp ∈ s'.failed_files →
      ∀ id itemType description tags priority clock,
        queue_upload s' fp id itemType description tags priority clock = s' := by
    intro s' fp h id itemType description tags priority clock
    unfold queue_upload
    split
    · rfl
    · split
      · rfl
      · rfl
  intro evs
  induction evs with
  | nil =>
      intro s fp hfp hadm
      exact ⟨hfp, by simp [run_bot_events], hrej s fp hfp⟩
  | cons e es ih =>
      intro s fp hfp hadm
      have he := hadm e (List.mem_cons_self e es)
      have hes : ∀ e' ∈ es, e' ≠ BotEvent.clearQueue ∧ e' ≠ BotEvent.retryFailed :=
        fun e' he' => hadm e' (List.mem_cons_of_mem e he')
      have hstep := bot_step_failed_monotone s e he.1 he.2
      have hfp' := hstep.1 fp hfp
      have ihh := ih (bot_step s e).1 fp hfp' hes
      refine ⟨ihh.1, ?_, hrej s fp hfp⟩
      show fp ∉ ((run_bot_events s (e :: es)).2)
      unfold run_bot_events
      intro hmem
      rcases List.mem_append.mp hmem with h | h
      · exact hstep.2 fp h hfp
      · exact ihh.2.1 h

/-- Witness for C4: after re-enqueueing the quarantined path and running two
worker iterations, `/f/bad` is still quarantined and was never uploaded. -/
theorem quarantine_persists_until_admin_clear_witness :
    "/f/bad" ∈ (run_bot_events sample_quarantined_bot
      [BotEvent.enqueue "/f/bad" "ib" "download" "" "" 99 1, BotEvent.work true,
        BotEvent.work true]).1.failed_files ∧
    "/f/bad" ∉ (run_bot_events sample_quarantined_bot
      [BotEvent.enqueue "/f/bad" "ib" "download" "" "" 99 1, BotEvent.work true,
        BotEvent.work true]).2 :=
  ⟨(quarantine_persists_until_admin_clear
      [BotEvent.enqueue "/f/bad" "ib" "download" "" "" 99 1, BotEvent.work true,
        BotEvent.work true] sample_quarantined_bot "/f/bad" (by decide) (by decide)).1,
   (quarantine_persists_until_admin_clear
      [BotEvent.enqueue "/f/bad" "ib" "download" "" "" 99 1, BotEvent.work true,
        BotEvent.work true] sample_quarantined_bot "/f/bad" (by decide) (by decide)).2.1⟩

theorem attempt_data_status (d : DownloadData) (e : EngineSpec) (clock : Nat) (fp : String) :
    (attempt_data d e clock fp).status = DStatus.downloading := by
  unfold attempt_data resolve_filepath
  split <;> rfl

theorem attempt_data_engine (d : DownloadData) (e : EngineSpec) (clock : Nat) (fp : String) :
    (attempt_data d e clock fp).engine = e.name := by
  unfold attempt_data resolve_filepath
  split <;> rfl

theorem attempt_data_created (d : DownloadData) (e : EngineSpec) (clock : Nat) (fp : String) :
    (attempt_data d e clock fp).created_at = d.created_at := by
  unfold attempt_data resolve_filepath
  split <;> rfl

theorem getLast_error_cons :
    ∀ (rest : List EngineSpec) (e : EngineSpec) (dflt : String),
      (((e :: rest).getLast?).map (fun x => x.error)).getD dflt =
        ((rest.getLast?).map (fun x => x.error)).getD e.error := by
  intro rest
  induction rest with
  | nil => intro e dflt; rfl
  | cons y ys ih =>
      intro e dflt
      rw [List.getLast?_cons_cons, ih y dflt, ih y e.error]

theorem worker_loop_characterization :
    ∀ (es : List EngineSpec) (fp url : String) (clock : Nat) (d : DownloadData)
      (lastError : Option String) (fs : List String),
      d.status = DStatus.downloading ∨ (d.status ≠ DStatus.cancelled ∧ es ≠ []) →
      (worker_loop fp url clock d lastError fs es).attempts =
          (failedSpan es).map (fun e => e.name) ++
            ((firstSuccess es).map (fun e => e.name)).toList ∧
      (worker_loop fp url clock d lastError fs es).stats =
          (failedSpan es).map (fun e => (⟨e.name, url, false, 0, some e.error⟩ : StatEntry)) ++
            ((firstSuccess es).map
              (fun e => (⟨e.name, url, true, e.size, none⟩ : StatEntry))).toList ∧
      (worker_loop fp url clock d lastError fs es).events =
          (failedSpan es).map (fun _ => TsField.startedAt) ++
            (if (firstSuccess es).isSome then [TsField.startedAt, TsField.finishedAt] else []) ∧
      (∀ g ∈ (worker_loop fp url clock d lastError fs es).fsTrace, fp ∉ g) ∧
      (worker_loop fp url clock d lastError fs es).data.created_at = d.created_at ∧
      (match firstSuccess es with
       | some e =>
           (worker_loop fp url clock d lastError fs es).data.status = DStatus.completed ∧
           (worker_loop fp url clock d lastError fs es).data.progress = 100 ∧
           (worker_loop fp url clock d lastError fs es).data.engine = e.name
       | none =>
           (worker_loop fp url clock d lastError fs es).data.status = DStatus.error ∧
           (worker_loop fp url clock d lastError fs es).data.error_message =
             some ((((es.getLast?).map (fun e => e.error))).getD
               (lastError.getD "All download engines failed"))) := by
  intro es
  induction es with
  | nil =>
      intro fp url clock d lastError fs h
      have hst : d.status = DStatus.downloading := by
        rcases h with h | ⟨-, hne⟩
        · exact h
        · exact absurd rfl hne
      simp only [worker_loop]
      rw [if_pos hst]
      refine ⟨rfl, rfl, rfl, ?_, rfl, rfl, rfl⟩
      intro g hg
      exact absurd hg (List.not_mem_nil g)
  | cons e rest ih =>
      intro fp url clock d lastError fs h
      have hnc : d.status ≠ DStatus.cancelled := by
        rcases h with h | ⟨h, -⟩
        · rw [h]
          exact fun hh => by cases hh
        · exact h
      simp only [worker_loop]
      rw [if_neg hnc]
      cases hs : e.success with
      | true =>
          have hfpre : failedSpan (e :: rest) = [] := by
            simp [failedSpan, List.takeWhile_cons, hs]
          have hfs : firstSuccess (e :: rest) = some e := by
            simp [firstSuccess, List.find?_cons, hs]
          rw [if_pos rfl]
          rw [hfpre]
          rw [hfs]
          refine ⟨rfl, rfl, rfl, ?_, ?_, rfl, rfl, ?_⟩
          · intro g hg
            exact absurd hg (List.not_mem_nil g)
          · exact attempt_data_created d e clock fp
          · exact attempt_data_engine d e clock fp
      | false =>
          have hfpre : failedSpan (e :: rest) = e :: failedSpan rest := by
            simp [failedSpan, List.takeWhile_cons, hs]
          have hfs : firstSuccess (e :: rest) = firstSuccess rest := by
            simp [firstSuccess, List.find?_cons, hs]
          rw [if_neg (by simp)]
          dsimp only
          have ihh := ih fp url (clock + 1) (attempt_data d e clock fp) (some e.error)
            (List.filter (fun x => x ≠ fp) (engine_fs_effect e fp fs))
            (Or.inl (attempt_data_status d e clock fp))
          obtain ⟨iha, ihs, ihe, iht, ihc, ihm⟩ := ihh
          rw [hfpre, hfs]
          refine ⟨?_, ?_, ?_, ?_, ?_, ?_⟩
          · rw [List.map_cons, List.cons_append, iha]
          · rw [List.map_cons, List.cons_append, ihs]
          · rw [List.map_cons, List.cons_append, ihe]
          · intro g hg
            rcases List.mem_cons.mp hg with rfl | hg
            · simp
            · exact iht g hg
          · rw [ihc, attempt_data_created]
          · rcases hfsr : firstSuccess rest with - | e'
            · rw [hfsr] at ihm
              refine ⟨ihm.1, ?_⟩
              rw [ihm.2, getLast_error_cons]
              rfl
            · rw [hfsr] at ihm
              exact ihm

theorem compat_names_sublist (engine_priority : List String)
    (available : List (String × EngineSpec)) (url : String)
    (can_handle_url : String → String → Bool)
    (hnames : ∀ p ∈ available, p.2.name = p.1) :
    ((get_all_compatible_engines engine_priority available url can_handle_url).map
      (fun e => e.name)).Sublist engine_priority := by
  induction engine_priority with
  | nil => simp [get_all_compatible_engines]
  | cons n ns ih =>
      unfold get_all_compatible_engines
      rw [List.filterMap_cons]
      cases hfind : available.find? (fun p => p.1 = n) with
      | none =>
          exact List.Sublist.cons n ih
      | some p =>
          cases hch : can_handle_url n url with
          | false =>
              dsimp only
              rw [show (if false = true then some p.2 else none : Option EngineSpec) = none
                from by simp]
              exact List.Sublist.cons n ih
          | true =>
              dsimp only
              rw [show (if true = true then some p.2 else none : Option EngineSpec) = some p.2
                from rfl]
              have hmem : p ∈ available := List.mem_of_find?_eq_some hfind
              have hkey : p.1 = n := by
                have := List.find?_some hfind
                exact of_decide_eq_true this
              dsimp only
              rw [List.map_cons, hnames p hmem, hkey]
              exact List.Sublist.cons₂ n ih

/-- C2: with at least one compatible engine, the worker tries the compatible
engines (filtered from the priority-ordered configuration, hence in priority
order) strictly in list order, stopping at the first success with
`completed`/progress 100/that engine's name and exactly one success stat;
every failed attempt contributes a failure stat and the partial file at the
destination is deleted before the next engine runs; if all engines fail the
record ends in `error` carrying the last engine's error message. -/
theorem download_worker_engine_fallback
    (engine_priority : List String) (available : List (String × EngineSpec))
    (url : String) (can_handle_url : String → String → Bool)
    (fp id description tags quality : String) (audio : Bool) (clock0 clock : Nat)
    (fs : List String)
    (hnames : ∀ p ∈ available, p.2.name = p.1)
    (hne : get_all_compatible_engines engine_priority available url can_handle_url ≠ []) :
    let es := get_all_compatible_engines engine_priority available url can_handle_url
    let r := download_worker fp url clock
      (mk_download_data id url description tags quality audio clock0) es fs
    (es.map (fun e => e.name)).Sublist engine_priority ∧
    r.attempts = (failedSpan es).map (fun e => e.name) ++
      ((firstSuccess es).map (fun e => e.name)).toList ∧
    r.stats = (failedSpan es).map
        (fun e => (⟨e.name, url, false, 0, some e.error⟩ : StatEntry)) ++
      ((firstSuccess es).map
        (fun e => (⟨e.name, url, true, e.size, none⟩ : StatEntry))).toList ∧
    (∀ g ∈ r.fsTrace, fp ∉ g) ∧
    (match firstSuccess es with
     | some e =>
         r.data.status = DStatus.completed ∧ r.data.progress = 100 ∧
         r.data.engine = e.name ∧
         r.stats.filter (fun t => t.success) =
           [(⟨e.name, url, true, e.size, none⟩ : StatEntry)]
     | none =>
         r.data.status = DStatus.error ∧
         r.data.error_message =
           some (((es.getLast?).map (fun e => e.error)).getD
             "All download engines failed")) := by
  intro es r
  have hr : r = worker_loop fp url clock
      (mk_download_data id url description tags quality audio clock0) none fs es := by
    show download_worker fp url clock
      (mk_download_data id url description tags quality audio clock0) es fs = _
    unfold download_worker
    rw [if_neg (fun hh => hne (by simpa using hh))]
  have hnotc : (mk_download_data id url description tags quality audio clock0).status ≠
      DStatus.cancelled := by
    intro hcon
    simp [mk_download_data] at hcon
  have hchar := worker_loop_characterization es fp url clock
    (mk_download_data id url description tags quality audio clock0) none fs
    (Or.inr ⟨hnotc, hne⟩)
  obtain ⟨ha, hst, -, htr, -, hm⟩ := hchar
  have hfilterfail :
      List.filter (fun t => t.success)
        ((failedSpan es).map
          (fun e => (⟨e.name, url, false, 0, some e.error⟩ : StatEntry))) = [] := by
    rw [List.filter_map]
    simp [Function.comp]
  refine ⟨compat_names_sublist engine_priority available url can_handle_url hnames,
    ?_, ?_, ?_, ?_⟩
  · rw [hr]
    exact ha
  · rw [hr]
    exact hst
  · rw [hr]
    exact htr
  · rcases hfs : firstSuccess es with - | e
    · rw [hfs] at hm
      rw [hr]
      exact hm
    · rw [hfs] at hm hst
      rw [hr]
      exact ⟨hm.1, hm.2.1, hm.2.2, by rw [hst, List.filter_append, hfilterfail]; simp⟩

/-- Witness for C2: for `http://x` with `requests` (priority 1, failing) and
`wget` (priority 2, succeeding), the run completes via `wget` after one
failure, with exactly one success stat. -/
theorem download_worker_engine_fallback_witness :
    (let es := get_all_compatible_engines ["requests", "wget"] sample_available
        "http://x" (fun _ _ => true);
     let r := download_worker "/d/f.bin" "http://x" 1
        (mk_download_data "w2" "http://x" "" "" "best" false 0) es [];
     r.data.status = DStatus.completed ∧ r.data.engine = "wget" ∧
     r.attempts = ["requests", "wget"] ∧
     r.stats.filter (fun t => t.success) =
       [(⟨"wget", "http://x", true, 10000000, none⟩ : StatEntry)]) := by
  have h := download_worker_engine_fallback ["requests", "wget"] sample_available
    "http://x" (fun _ _ => true) "/d/f.bin" "w2" "" "" "best" false 0 1 []
    (by decide) (by decide)
  exact ⟨h.2.2.2.2.1, h.2.2.2.2.2.2.1, h.2.1.trans (by decide), h.2.2.2.2.2.2.2⟩

/-- C7 counterexample: the claim says `started_at` is assigned only on the
first engine attempt, but in a run where `requests` fails and `wget` then
succeeds (two attempts), the worker performs two `started_at` assignments —
one per attempt. -/
theorem started_at_set_on_every_attempt :
    (download_worker "/d/f.bin" "http://x" 1
        (mk_download_data "w7" "http://x" "" "" "best" false 0)
        [sample_fail_engine, sample_success_engine] []).attempts.length = 2 ∧
    (download_worker "/d/f.bin" "http://x" 1
        (mk_download_data "w7" "http://x" "" "" "best" false 0)
        [sample_fail_engine, sample_success_engine] []).events.count TsField.startedAt = 2 ∧
    (download_worker "/d/f.bin" "http://x" 1
        (mk_download_data "w7" "http://x" "" "" "best" false 0)
        [sample_fail_engine, sample_success_engine] []).events.count TsField.startedAt ≠ 1 := by
  exact ⟨by decide, by decide, by decide⟩

/-- C7 amended: `created_at` is assigned exactly once, at record creation, and
never touched by the worker; `finished_at` is assigned exactly once when some
engine succeeds and never otherwise; `started_at` is assigned once per engine
attempt — so it is reassigned on every fallback engine and on every resumed
run, not only on the first attempt. -/
theorem timestamps_amended (fp url id description tags quality : String) (audio : Bool)
    (clock0 clock : Nat) (es : List EngineSpec) (fs : List String) (hne : es ≠ []) :
    let d0 := mk_download_data id url description tags quality audio clock0
    let r := download_worker fp url clock d0 es fs
    d0.created_at = some clock0 ∧
    r.data.created_at = d0.created_at ∧
    r.events.count TsField.createdAt = 0 ∧
    r.events.count TsField.startedAt = r.attempts.length ∧
    r.events.count TsField.finishedAt =
      (if (firstSuccess es).isSome then 1 else 0) := by
  intro d0 r
  have hnotc : d0.status ≠ DStatus.cancelled := by
    intro hcon
    simp [d0, mk_download_data] at hcon
  have hr : r = worker_loop fp url clock d0 none fs es := by
    show download_worker fp url clock d0 es fs = _
    unfold download_worker
    rw [if_neg (fun hh => hne (by simpa using hh))]
  have hchar := worker_loop_characterization es fp url clock d0 none fs
    (Or.inr ⟨hnotc, hne⟩)
  obtain ⟨ha, -, he, -, hc, -⟩ := hchar
  refine ⟨rfl, ?_, ?_, ?_, ?_⟩
  · rw [hr]
    exact hc
  · rcases hfs : firstSuccess es with - | e <;>
      simp [hr, he, hfs, List.count_append, List.map_const', List.count_replicate]
  · rcases hfs : firstSuccess es with - | e <;>
      simp [hr, he, ha, hfs, List.count_append, List.map_const', List.count_replicate]
  · rcases hfs : firstSuccess es with - | e <;>
      simp [hr, he, hfs, List.count_append, List.map_const', List.count_replicate]

/-- Witness for C7 at the two-engine fail-then-succeed run: two `started_at`
assignments (one per attempt) and one `finished_at` assignment. -/
theorem timestamps_amended_witness :
    (download_worker "/d/f.bin" "http://x" 1
        (mk_download_data "w8" "http://x" "" "" "best" false 0)
        [sample_fail_engine, sample_success_engine] []).events.count TsField.startedAt = 2 ∧
    (download_worker "/d/f.bin" "http://x" 1
        (mk_download_data "w8" "http://x" "" "" "best" false 0)
        [sample_fail_engine, sample_success_engine] []).events.count TsField.finishedAt = 1 := by
  have h := timestamps_amended "/d/f.bin" "http://x" "w8" "" "" "best" false 0 1
    [sample_fail_engine, sample_success_engine] [] (by decide)
  exact ⟨h.2.2.2.1.trans (by decide), h.2.2.2.2.trans (by decide)⟩

end Updl
